import Mathlib

/-!
Verification development for the RikkaTTS client (SiliconFlow TTS web client).

The definitions below are a shallow embedding of the application's generation
task pipeline, playback chain controller, persisted message store and remote
speech gateway, translated from the TypeScript source (the App component and
the services/api module). Asynchronous platform effects (HTTP transport, the
JSON parser, timers, the shared cancellation flag) are represented by explicit
oracle parameters: a function giving the result of each remote call, and
boolean-valued functions giving the value of the cancellation flag at each
suspension point where the code reads it. JavaScript string operations
(`split`, `trim`, `includes`) are modelled by structurally recursive functions
over the character list of the string so that every definition evaluates on
concrete inputs.
-/

namespace RikkaTTS

/-- Status of an `AudioMessage` record: `'pending' | 'success' | 'error'`. -/
inductive Status where
  | pending
  | success
  | error
deriving DecidableEq, Repr

/-- One message record of the pipeline (id, text, audioUrl, status,
errorMessage fields of the TypeScript `AudioMessage`; the informational
`cost`/`generationTime`/`createdAt` fields are not modelled since no claim
mentions them). -/
structure AudioMessage where
  id : String
  text : String
  audioUrl : String
  status : Status
  errorMessage : Option String := none
deriving DecidableEq, Repr

/-- `'system' | 'custom'` voice type. -/
inductive VoiceType where
  | system
  | custom
deriving DecidableEq, Repr

/-- The `Voice` descriptor from types.ts. -/
structure Voice where
  id : String
  name : String
  type : VoiceType
deriving DecidableEq, Repr

/-- Whether the pattern occurs at the head of the character list. -/
def matchesAt : List Char → List Char → Bool
  | _, [] => true
  | [], _ :: _ => false
  | c :: cs, p :: ps => c = p && matchesAt cs ps

/-- Occurrence search over character lists. -/
def subSearch (pat : List Char) : List Char → Bool
  | [] => matchesAt [] pat
  | l@(_ :: rest) => matchesAt l pat || subSearch pat rest

/-- JavaScript `String.prototype.includes`. -/
def containsSub (s pat : String) : Bool :=
  subSearch pat.data s.data

/-- `selectedModel.includes('IndexTTS')`: the designated retry-prone model
family check from `processSingleTask`. -/
def retryProne (model : String) : Bool :=
  containsSub model "IndexTTS"

/-- Splitting a character list on a separator character, JavaScript
`split(sep)` semantics (adjacent separators yield empty parts). -/
def splitCharAux (sep : Char) : List Char → List Char → List (List Char)
  | [], acc => [acc.reverse]
  | c :: cs, acc =>
    if c = sep then acc.reverse :: splitCharAux sep cs []
    else splitCharAux sep cs (c :: acc)

/-- JavaScript `text.split('\n')`. -/
def jsSplitNewline (s : String) : List String :=
  (splitCharAux '\n' s.data []).map String.mk

/-- JavaScript `String.prototype.trim` (whitespace taken as space, tab, CR,
LF; the exotic Unicode whitespace JavaScript also strips never arises here). -/
def jsTrim (s : String) : String :=
  String.mk (((s.data.dropWhile Char.isWhitespace).reverse.dropWhile Char.isWhitespace).reverse)

/-- `text.split('\n').map(l => l.trim()).filter(l => l.length > 0)` from
`handleGenerate` (auto-split enabled branch). -/
def splitSegments (text : String) : List String :=
  ((jsSplitNewline text).map jsTrim).filter fun l => decide (l.length > 0)

/-- The segment list produced by a submission: the split partition when
auto-split is enabled, otherwise the whole text as a single segment. -/
def submissionSegments (enableSplit : Bool) (text : String) : List String :=
  if enableSplit then splitSegments text else [text]

/-- One generation task: a fresh id paired with its segment text. -/
structure GenTask where
  id : String
  text : String
deriving DecidableEq, Repr

/-- Task construction: each segment receives a fresh id from the id supply
(`Date.now() + random` in the source, abstracted as a supply indexed by
creation order). -/
def mkTasks (ids : Nat → String) : Nat → List String → List GenTask
  | _, [] => []
  | i, s :: rest => { id := ids i, text := s } :: mkTasks ids (i + 1) rest

/-- The placeholder card inserted for a task before any remote call:
`{ id, text, audioUrl: '', status: 'pending' }`. -/
def mkPending (t : GenTask) : AudioMessage :=
  { id := t.id, text := t.text, audioUrl := "", status := .pending, errorMessage := none }

/-! ## Per-task execution (`processSingleTask`)

The synthesis environment supplies the result of the k-th `generateSpeech`
call and the value of the shared cancellation flag `stopGenerationRef.current`
at the two suspension points inside the retry loop where the code re-reads it:
right after the k-th call returns (the `catch` check, also the post-`break`
check at the `if (stopGenerationRef.current) throw "Stopped"` line, which runs
in the same synchronous block) and right after the k-th one-second delay (the
re-check after the wait, which is also the value the next loop-head check
sees, as no suspension point separates them). -/

/-- Oracles for one task's execution. -/
structure SynthEnv where
  result : Nat → Except String String
  stopAfterCall : Nat → Bool
  stopAfterDelay : Nat → Bool

/-- The sentinel message thrown when cancellation is observed inside the
retry loop: `"User manually stopped generation."`. -/
def stopSentinel : String := "User manually stopped generation."

/-- The sentinel message thrown by the post-loop cancellation check:
`"Stopped"`. -/
def stoppedMsg : String := "Stopped"

/-- How the while-loop of the IndexTTS retry logic was exited. -/
inductive LoopExit where
  | broke (url : String) (stopNow : Bool)
  | headStop
  | stoppedInCatch
deriving DecidableEq, Repr

/-- Observables of the retry loop: how it exited, how many retry warnings
were logged, how many one-second delays were performed, and how many
synthesis calls were made. -/
structure RetryRes where
  exit : LoopExit
  warnings : Nat
  delays : Nat
  calls : Nat
deriving DecidableEq, Repr

/-- The `while (!stopGenerationRef.current)` retry loop of
`processSingleTask`, fuelled (the source loop can run forever when every
attempt fails and cancellation never arrives; `none` means the fuel ran out
before the loop exited). `k` is the index of the next synthesis attempt and
`headStop` the flag value the loop head observes. -/
def retryAux (env : SynthEnv) : Nat → Nat → Bool → Option RetryRes
  | 0, _, _ => none
  | _ + 1, _, true => some { exit := .headStop, warnings := 0, delays := 0, calls := 0 }
  | fuel + 1, k, false =>
    match env.result k with
    | .ok url =>
      some { exit := .broke url (env.stopAfterCall k), warnings := 0, delays := 0, calls := 1 }
    | .error _ =>
      if env.stopAfterCall k then
        some { exit := .stoppedInCatch, warnings := 0, delays := 0, calls := 1 }
      else if env.stopAfterDelay k then
        some { exit := .stoppedInCatch, warnings := 1, delays := 1, calls := 1 }
      else
        match retryAux env fuel (k + 1) (env.stopAfterDelay k) with
        | none => none
        | some r =>
          some { exit := r.exit, warnings := r.warnings + 1, delays := r.delays + 1,
                 calls := r.calls + 1 }

/-- Outcome of one task: the success path (audio fetched, record reconciled
to `success`) or an exception propagated to the dispatching caller. -/
inductive TaskOutcome where
  | ok (url : String)
  | thrown (msg : String)
deriving DecidableEq, Repr

/-- Observables of one `processSingleTask` run. -/
structure TaskTrace where
  outcome : TaskOutcome
  warnings : Nat
  delays : Nat
  calls : Nat
deriving DecidableEq, Repr

/-- `processSingleTask`: models whose id contains `'IndexTTS'` run the
fuelled retry loop (throwing the stop sentinel when cancellation is observed
in the catch block or after the delay, and `"Stopped"` when the loop exits
with the flag set); every other model performs exactly one synthesis call.
The post-loop blob fetch and base64 conversion are abstracted into the
returned url. `stop0` is the flag value on entry. -/
def processSingleTask (model : String) (env : SynthEnv) (stop0 : Bool) (fuel : Nat) :
    Option TaskTrace :=
  if retryProne model then
    match retryAux env fuel 0 stop0 with
    | none => none
    | some r =>
      match r.exit with
      | .stoppedInCatch =>
        some { outcome := .thrown stopSentinel, warnings := r.warnings, delays := r.delays,
               calls := r.calls }
      | .headStop =>
        some { outcome := .thrown stoppedMsg, warnings := r.warnings, delays := r.delays,
               calls := r.calls }
      | .broke url stopNow =>
        if stopNow then
          some { outcome := .thrown stoppedMsg, warnings := r.warnings, delays := r.delays,
                 calls := r.calls }
        else
          some { outcome := .ok url, warnings := r.warnings, delays := r.delays,
                 calls := r.calls }
  else
    match env.result 0 with
    | .error e => some { outcome := .thrown e, warnings := 0, delays := 0, calls := 1 }
    | .ok url =>
      if env.stopAfterCall 0 then
        some { outcome := .thrown stoppedMsg, warnings := 0, delays := 0, calls := 1 }
      else
        some { outcome := .ok url, warnings := 0, delays := 0, calls := 1 }

/-- The in-place success reconciliation `setMessages(prev => prev.map(...))`
performed at the end of `processSingleTask`. -/
def markSuccess (msgs : List AudioMessage) (taskId url : String) : List AudioMessage :=
  msgs.map fun m =>
    if m.id = taskId then
      { m with audioUrl := url, status := .success }
    else m

/-- The error reconciliation performed by the dispatching caller's catch
block. -/
def markError (msgs : List AudioMessage) (taskId msg : String) : List AudioMessage :=
  msgs.map fun m =>
    if m.id = taskId then
      { m with status := .error, errorMessage := some msg }
    else m

/-- The concurrent dispatcher's catch block: only the exact message
`"Stopped"` is treated as cancellation; every other thrown message (including
the retry loop's stop sentinel) is recorded as an `error` record. -/
def applyOutcomeConcurrent (msgs : List AudioMessage) (taskId : String)
    (t : TaskOutcome) : List AudioMessage :=
  match t with
  | .ok url => markSuccess msgs taskId url
  | .thrown msg => if msg = stoppedMsg then msgs else markError msgs taskId msg

/-- One task of the concurrent dispatch (`tasks.map(async task => ...)`):
the pre-check `if (stopGenerationRef.current) return;` followed by
`processSingleTask` and the catch block. -/
def runTaskConcurrent (model : String) (env : SynthEnv) (stop0 : Bool) (fuel : Nat)
    (msgs : List AudioMessage) (taskId : String) : Option (List AudioMessage) :=
  if stop0 then some msgs
  else
    match processSingleTask model env stop0 fuel with
    | none => none
    | some tr => some (applyOutcomeConcurrent msgs taskId tr.outcome)

/-- The sequential dispatcher's cancellation test on a caught message:
`msg === "Stopped" || msg.includes("stopped")`. -/
def isStopMsg (msg : String) : Bool :=
  msg == stoppedMsg || containsSub msg "stopped"

/-- Oracles for a sequential batch: the outcome `processSingleTask` produces
for the i-th task, and the value of the cancellation flag at the
`if (stopGenerationRef.current) break;` check before the i-th task. -/
structure BatchEnv where
  outcome : Nat → TaskOutcome
  stopBefore : Nat → Bool

/-- The sequential `for (const task of tasks)` loop of `handleGenerate`:
check the flag before each task; on a thrown stop message log and break;
otherwise reconcile the record to `error`; successes were already reconciled
inside `processSingleTask`. Returns the updated message list and the ids of
the tasks actually dispatched (i.e. for which a synthesis attempt was made). -/
def seqDispatch (env : BatchEnv) : Nat → List GenTask → List AudioMessage →
    List AudioMessage × List String
  | _, [], msgs => (msgs, [])
  | i, t :: rest, msgs =>
    if env.stopBefore i then (msgs, [])
    else
      match env.outcome i with
      | .ok url =>
        let next := seqDispatch env (i + 1) rest (markSuccess msgs t.id url)
        (next.1, t.id :: next.2)
      | .thrown msg =>
        if isStopMsg msg then (msgs, [t.id])
        else
          let next := seqDispatch env (i + 1) rest (markError msgs t.id msg)
          (next.1, t.id :: next.2)

/-- The sequential-mode body of `handleGenerate` after segmentation: insert
all placeholder cards at the front of the list, run the sequential loop, and
— when the cancellation flag is set at the end (`stopFinal`) — remove every
record still `pending`. -/
def runBatchSeq (env : BatchEnv) (stopFinal : Bool) (tasks : List GenTask)
    (msgs0 : List AudioMessage) : List AudioMessage × List String :=
  let res := seqDispatch env 0 tasks (tasks.map mkPending ++ msgs0)
  (if stopFinal then res.1.filter (fun m => m.status != Status.pending) else res.1, res.2)

/-- `handleGenerate` (sequential mode): segmentation, the zero-segment abort
(`addLog` warning, `return` — no placeholder created, nothing dispatched),
task creation, and the sequential batch. -/
def handleGenerateSeq (enableSplit : Bool) (env : BatchEnv) (stopFinal : Bool)
    (ids : Nat → String) (text : String) (msgs0 : List AudioMessage) :
    List AudioMessage × List String :=
  let segs := submissionSegments enableSplit text
  if enableSplit && segs.isEmpty then (msgs0, [])
  else runBatchSeq env stopFinal (mkTasks ids 0 segs) msgs0

/-- The record a task's placeholder has become once its outcome was applied
by the sequential loop. -/
def resolvedMsg (t : GenTask) (o : TaskOutcome) : AudioMessage :=
  match o with
  | .ok url => { id := t.id, text := t.text, audioUrl := url, status := .success,
                 errorMessage := none }
  | .thrown msg => { id := t.id, text := t.text, audioUrl := "", status := .error,
                     errorMessage := some msg }

/-- An outcome that reconciles the record to a terminal state (success, or an
error that is not a cancellation sentinel). -/
def resolvedOutcome : TaskOutcome → Bool
  | .ok _ => true
  | .thrown msg => !(isStopMsg msg)

/-- The resolved records of the tasks processed before the stop point `k`,
starting at absolute index `j`. -/
def resolvedFrom (env : BatchEnv) (k : Nat) : Nat → List GenTask → List AudioMessage
  | _, [] => []
  | j, t :: rest =>
    if j < k then resolvedMsg t (env.outcome j) :: resolvedFrom env k (j + 1) rest
    else []

/-! ## Persisted message store -/

/-- `messages.filter(m => m.status !== 'pending' && m.status !== 'error')`
from `saveMessagesToStorage`: the subset serialized to local storage. -/
def messagesToSave (msgs : List AudioMessage) : List AudioMessage :=
  msgs.filter fun m => m.status != Status.pending && m.status != Status.error

/-- The quota eviction of `saveMessagesToStorage`: find the oldest `success`
record by `prev.slice().reverse().findIndex(m => m.status === 'success')`,
remove it at `prev.length - 1 - index`; if none exists, `prev.slice(0, -1)`
removes the oldest record of any status. -/
def evictOne (msgs : List AudioMessage) : List AudioMessage :=
  match msgs.reverse.findIdx? (fun m => m.status == Status.success) with
  | some i => msgs.eraseIdx (msgs.length - 1 - i)
  | none => msgs.dropLast

/-- Result of one run of the debounced `saveMessagesToStorage` effect. -/
inductive SaveOutcome where
  | saved (persisted : List AudioMessage)
  | evicted (newMessages : List AudioMessage) (retryScheduled : Bool)
  | quotaNoop
deriving DecidableEq, Repr

/-- One run of `saveMessagesToStorage`: serialize the non-pending, non-error
subset; on a quota failure (modelled by the `quotaExceeded` predicate on the
serialized subset) and a non-empty message list, evict one record via
`setMessages` — which re-triggers the debounced save effect, scheduling a
retry — and log a warning; a quota failure on an empty list does nothing. -/
def saveMessagesToStorage (quotaExceeded : List AudioMessage → Bool)
    (msgs : List AudioMessage) : SaveOutcome :=
  let toSave := messagesToSave msgs
  if quotaExceeded toSave then
    if msgs.length > 0 then .evicted (evictOne msgs) true
    else .quotaNoop
  else .saved toSave

/-! ## Playback chain controller -/

/-- `handleAudioEnded` from the App component: given the auto-play flag, the
newest-first message list, the current active id and the id whose playback
ended, return the new active id. -/
def handleAudioEnded (isAutoPlayEnabled : Bool) (messages : List AudioMessage)
    (activePlayingId : Option String) (endedId : String) : Option String :=
  if !isAutoPlayEnabled then none
  else
    match messages.findIdx? (fun m => m.id == endedId) with
    | none => activePlayingId
    | some currentIndex =>
      match messages[currentIndex + 1]? with
      | some nextMessage =>
        if nextMessage.status == Status.success then some nextMessage.id else none
      | none => none

/-! ## Remote speech gateway: request construction -/

/-- Voice-parameter encoding from `generateSpeech` (services/api): custom
voices pass their id directly when non-empty; system voices are encoded as
`model:id` unless the id is empty or `'default'`, in which case the `voice`
field is omitted from the request body. -/
def speechVoiceParam (model : String) (voice : Voice) : Option String :=
  if voice.type = VoiceType.custom then
    if voice.id != "" then some voice.id else none
  else
    if voice.id != "" && voice.id != "default" then
      some (model ++ ":" ++ voice.id)
    else none

/-- The JSON body posted to `/audio/speech`. -/
structure SpeechRequestBody where
  model : String
  input : String
  voice : Option String
  responseFormat : String
  stream : Bool
deriving DecidableEq, Repr

/-- Body construction in `generateSpeech`: fixed `response_format: 'mp3'`,
`stream: false`, and the conditional `voice` field. -/
def buildSpeechBody (model text : String) (voice : Voice) : SpeechRequestBody :=
  { model := model
    input := text
    voice := speechVoiceParam model voice
    responseFormat := "mp3"
    stream := false }

/-- The request-construction phase of `generateSpeech`: the guard
`if (!text || !text.trim()) throw new Error("Text is required")` runs before
any HTTP request; an `Except.error` result means no request body was ever
produced (hence no remote call and no state change). -/
def generateSpeech (text model : String) (voice : Voice) : Except String SpeechRequestBody :=
  if jsTrim text = "" then Except.error "Text is required"
  else Except.ok (buildSpeechBody model text voice)

/-- The id predicate the specification calls "the provider's implicit
default": an empty id or the literal `'default'`, both of which make the code
omit the voice parameter. -/
def isImplicitDefaultId (id : String) : Bool :=
  id == "" || id == "default"

/-! ## Remote speech gateway: error normalization

JSON values as consumed by the error-handling code. `JSON.parse` is a
platform facility; a provider response therefore carries both its raw body
text and the platform parser's result on it (`none` when the body is not
valid JSON). -/

/-- A JSON value. -/
inductive Json where
  | jnull
  | jbool (b : Bool)
  | jnum (n : Int)
  | jstr (s : String)
  | jarr (elems : List Json)
  | jobj (fields : List (String × Json))
deriving Repr

/-- JavaScript property access `j.key` (yields `none` for `undefined`). -/
def Json.lookup (j : Json) (key : String) : Option Json :=
  match j with
  | .jobj fields => List.lookup key fields
  | _ => none

/-- JavaScript truthiness of a JSON value. -/
def Json.truthy : Json → Bool
  | .jnull => false
  | .jbool b => b
  | .jnum n => n != 0
  | .jstr s => s != ""
  | .jarr _ => true
  | .jobj _ => true

/-- `typeof v === 'object'` for a truthy value (objects and arrays; `null` is
also `'object'` in JavaScript but never truthy). -/
def Json.isObjLike : Json → Bool
  | .jobj _ => true
  | .jarr _ => true
  | _ => false

/-- `typeof v === 'string'`. -/
def Json.isString : Json → Bool
  | .jstr _ => true
  | _ => false

/-- JavaScript strict equality `v === n` against a number literal. -/
def Json.isNumVal (j : Json) (n : Int) : Bool :=
  match j with
  | .jnum m => m == n
  | _ => false

mutual
/-- JavaScript string coercion `` `${v}` `` of a JSON value. -/
def Json.render : Json → String
  | .jnull => "null"
  | .jbool b => cond b "true" "false"
  | .jnum n => toString n
  | .jstr s => s
  | .jarr xs => Json.renderList xs
  | .jobj _ => "[object Object]"

/-- Array coercion: elements joined by commas. -/
def Json.renderList : List Json → String
  | [] => ""
  | [x] => Json.render x
  | x :: y :: rest => Json.render x ++ "," ++ Json.renderList (y :: rest)
end

mutual
/-- `JSON.stringify` (string escaping beyond the quote delimiters is a
platform detail not exercised here). -/
def Json.stringify : Json → String
  | .jnull => "null"
  | .jbool b => cond b "true" "false"
  | .jnum n => toString n
  | .jstr s => "\"" ++ s ++ "\""
  | .jarr xs => "[" ++ Json.stringifyList xs ++ "]"
  | .jobj fs => "\x7b" ++ Json.stringifyFields fs ++ "\x7d"

/-- Stringify the elements of an array. -/
def Json.stringifyList : List Json → String
  | [] => ""
  | [x] => Json.stringify x
  | x :: y :: rest => Json.stringify x ++ "," ++ Json.stringifyList (y :: rest)

/-- Stringify the fields of an object. -/
def Json.stringifyFields : List (String × Json) → String
  | [] => ""
  | [(k, v)] => "\"" ++ k ++ "\":" ++ Json.stringify v
  | (k, v) :: f :: rest =>
    "\"" ++ k ++ "\":" ++ Json.stringify v ++ "," ++ Json.stringifyFields (f :: rest)
end

/-- A provider HTTP response as seen by the error-handling code: the
`response.ok` flag, the numeric status, the raw body text, and the platform
JSON parser's result on that text. -/
structure HttpResponse where
  ok : Bool
  status : Nat
  text : String
  json : Option Json

/-- The `json.code` suffix: `if (json.code) message += \` (Code: ...)\``. -/
def appendCode (j : Json) (base : String) : String :=
  match j.lookup "code" with
  | some cv => if cv.truthy then base ++ " (Code: " ++ cv.render ++ ")" else base
  | none => base

/-- The `else if (json.error ...)` chain of `parseResponseError`. -/
def errorFieldMessage (j : Json) (fallback : String) : String :=
  match j.lookup "error" with
  | some ev =>
    if ev.truthy && ev.isObjLike then
      match ev.lookup "message" with
      | some em => if em.truthy then em.render else ev.stringify
      | none => ev.stringify
    else if ev.truthy && ev.isString then ev.render
    else fallback
  | none => fallback

/-- `parseResponseError(response, context)` from services/api: start from the
generic `"<context> failed (<status>)"`; if the body parses as JSON, prefer a
truthy `message` field (with the `code` suffix), then the `error`
object/string; if the body is not JSON and shorter than 200 characters, use
`"<context>: <body>"`. -/
def parseResponseError (resp : HttpResponse) (context : String) : String :=
  let fallback := context ++ " failed (" ++ toString resp.status ++ ")"
  match resp.json with
  | none => if resp.text.length < 200 then context ++ ": " ++ resp.text else fallback
  | some j =>
    match j.lookup "message" with
    | some mv =>
      if mv.truthy then appendCode j mv.render
      else errorFieldMessage j fallback
    | none => errorFieldMessage j fallback

/-- Error path of `fetchCustomVoices`: `throw await
parseResponseError(response, "Fetch voices")` on `!response.ok`. -/
def fetchVoicesOutcome (resp : HttpResponse) : Except String Unit :=
  if resp.ok then .ok () else .error (parseResponseError resp "Fetch voices")

/-- Error path of `transcribeAudio`: context `"Transcription"`. -/
def transcribeOutcome (resp : HttpResponse) : Except String Unit :=
  if resp.ok then .ok () else .error (parseResponseError resp "Transcription")

/-- The post-HTTP logical-error double check of `uploadCustomVoice`:
`if (data.code && data.code !== 0 && data.code !== 200) throw new
Error(data.message || ...)` on an HTTP-success response. -/
def uploadLogicalCheck (data : Json) : Except String Unit :=
  match data.lookup "code" with
  | some cv =>
    if cv.truthy && !(cv.isNumVal 0) && !(cv.isNumVal 200) then
      .error
        (match data.lookup "message" with
         | some mv =>
           if mv.truthy then mv.render
           else "Upload failed with code " ++ cv.render
         | none => "Upload failed with code " ++ cv.render)
    else .ok ()
  | none => .ok ()

/-- Error paths of `uploadCustomVoice`: `parseResponseError(response,
"Upload")` on `!response.ok`, then the embedded logical-error check on the
parsed HTTP-200 body. -/
def uploadOutcome (resp : HttpResponse) : Except String Unit :=
  if resp.ok then uploadLogicalCheck (resp.json.getD (Json.jobj []))
  else .error (parseResponseError resp "Upload")

/-- Error path of `generateSpeech`: `parseResponseError(response, "Speech
generation")`, rewritten by the outer catch when the normalized message
contains `'50507'`. -/
def speechGenErrorMessage (resp : HttpResponse) (voice : Voice) (model : String) : String :=
  let base := parseResponseError resp "Speech generation"
  if containsSub base "50507" then
    "Generation failed (50507): The selected voice '" ++ voice.name ++ "' (" ++ voice.id ++
      ") appears incompatible with model '" ++ model ++
      "'. Try checking if this voice is supported by the model."
  else base

/-- Error path of `deleteCustomVoice`: NOT routed through
`parseResponseError`; instead `errorData = await response.json().catch(() =>
({}))` and `throw new Error(errorData.message || '未知错误')`. -/
def deleteVoiceErrorMessage (resp : HttpResponse) : String :=
  let errorData := resp.json.getD (Json.jobj [])
  match errorData.lookup "message" with
  | some mv => if mv.truthy then mv.render else "未知错误"
  | none => "未知错误"

/-- Outcome of `deleteCustomVoice` as a function of the response. -/
def deleteVoiceOutcome (resp : HttpResponse) : Except String String :=
  if resp.ok then .ok resp.text else .error (deleteVoiceErrorMessage resp)

/-! ## Helper lemmas -/

/-- `findIndex` on a list whose first match sits right after a match-free
block returns the block's length. -/
theorem findIdxAppendCons {α : Type} (p : α → Bool) (l1 : List α) (x : α) (l2 : List α)
    (h1 : ∀ a ∈ l1, p a = false) (hx : p x = true) :
    List.findIdx? p (l1 ++ x :: l2) = some l1.length := by
  induction l1 with
  | nil => simp [List.findIdx?_cons, hx]
  | cons a l ih =>
    have ha : p a = false := h1 a (List.mem_cons_self a l)
    have ih' := ih fun b hb => h1 b (List.mem_cons_of_mem a hb)
    simp [List.findIdx?_cons, ha, List.findIdx?_succ, ih']

/-- `findIndex` with no match returns `-1` (`none`). -/
theorem findIdxNoneOf {α : Type} (p : α → Bool) (l : List α)
    (h : ∀ a ∈ l, p a = false) : List.findIdx? p l = none :=
  List.findIdx?_eq_none_iff.mpr h

/-- Removing the element right after a block by its index. -/
theorem eraseIdxAppendCons {α : Type} (A : List α) (x : α) (B : List α) :
    (A ++ x :: B).eraseIdx A.length = A ++ B := by
  induction A with
  | nil => rfl
  | cons a l ih => simp [List.eraseIdx, ih]

/-! ## C5: quota eviction policy -/

/-- C5. On a storage-quota failure for a non-empty message list, exactly one
record is removed: the oldest `success` record (the last one of the
newest-first list, found by scanning from the tail); all other records are
unchanged and a retry of the save is scheduled. If no `success` record
exists, the oldest record of any status is removed instead. Without a quota
failure the save persists the serialized subset. -/
theorem quotaEvictionPolicy :
    (∀ (q : List AudioMessage → Bool) (A B : List AudioMessage) (s : AudioMessage),
      s.status = Status.success → (∀ m ∈ B, m.status ≠ Status.success) →
      q (messagesToSave (A ++ s :: B)) = true →
      saveMessagesToStorage q (A ++ s :: B) = .evicted (A ++ B) true)
    ∧ (∀ (q : List AudioMessage → Bool) (msgs : List AudioMessage),
      msgs ≠ [] → (∀ m ∈ msgs, m.status ≠ Status.success) →
      q (messagesToSave msgs) = true →
      saveMessagesToStorage q msgs = .evicted msgs.dropLast true)
    ∧ (∀ (q : List AudioMessage → Bool) (msgs : List AudioMessage),
      q (messagesToSave msgs) = false →
      saveMessagesToStorage q msgs = .saved (messagesToSave msgs)) := by
  refine ⟨?_, ?_, ?_⟩
  · intro q A B s hs hB hq
    have hfind : (A ++ s :: B).reverse.findIdx? (fun m => m.status == Status.success) =
        some B.length := by
      have hrev : (A ++ s :: B).reverse = B.reverse ++ s :: A.reverse := by simp
      rw [hrev]
      have h := findIdxAppendCons (fun m => m.status == Status.success) B.reverse s A.reverse
        (fun a ha => by
          have ha' : a ∈ B := by simpa using ha
          simpa using hB a ha')
        (by simp [hs])
      simpa using h
    have hidx : (A ++ s :: B).length - 1 - B.length = A.length := by
      simp only [List.length_append, List.length_cons]
      omega
    have hev : evictOne (A ++ s :: B) = A ++ B := by
      rw [evictOne, hfind]
      show (A ++ s :: B).eraseIdx ((A ++ s :: B).length - 1 - B.length) = A ++ B
      rw [hidx, eraseIdxAppendCons]
    have hlen : (A ++ s :: B).length > 0 := by simp
    simp [saveMessagesToStorage, hq, hlen, hev]
  · intro q msgs hne hnone hq
    have hfind : msgs.reverse.findIdx? (fun m => m.status == Status.success) = none :=
      findIdxNoneOf _ _ fun a ha => by
        have ha' : a ∈ msgs := by simpa using ha
        simpa using hnone a ha'
    have hev : evictOne msgs = msgs.dropLast := by rw [evictOne, hfind]
    have hlen : msgs.length > 0 := List.length_pos.mpr hne
    simp [saveMessagesToStorage, hq, hlen, hev]
  · intro q msgs hq
    simp [saveMessagesToStorage, hq]

/-- Witness for C5: on `[success A, success B, error C, success D]`
(newest-first) with a quota failure, exactly the oldest success `D` is
evicted and a retry is scheduled; the no-success case drops the oldest
record. -/
theorem quotaEvictionPolicy_witness :
    saveMessagesToStorage (fun _ => true)
      [{ id := "A", text := "a", audioUrl := "ua", status := .success },
       { id := "B", text := "b", audioUrl := "ub", status := .success },
       { id := "C", text := "c", audioUrl := "", status := .error,
         errorMessage := some "e" },
       { id := "D", text := "d", audioUrl := "ud", status := .success }] =
      .evicted
        [{ id := "A", text := "a", audioUrl := "ua", status := .success },
         { id := "B", text := "b", audioUrl := "ub", status := .success },
         { id := "C", text := "c", audioUrl := "", status := .error,
           errorMessage := some "e" }] true
    ∧ saveMessagesToStorage (fun _ => true)
      [{ id := "P", text := "p", audioUrl := "", status := .pending },
       { id := "C", text := "c", audioUrl := "", status := .error,
         errorMessage := some "e" }] =
      .evicted [{ id := "P", text := "p", audioUrl := "", status := .pending }] true := by
  constructor
  · have h := quotaEvictionPolicy.1 (fun _ => true)
      [{ id := "A", text := "a", audioUrl := "ua", status := .success },
       { id := "B", text := "b", audioUrl := "ub", status := .success },
       { id := "C", text := "c", audioUrl := "", status := .error,
         errorMessage := some "e" }] []
      { id := "D", text := "d", audioUrl := "ud", status := .success }
      rfl (by intro m hm; cases hm) rfl
    simpa using h
  · have h := quotaEvictionPolicy.2.1 (fun _ => true)
      [{ id := "P", text := "p", audioUrl := "", status := .pending },
       { id := "C", text := "c", audioUrl := "", status := .error,
         errorMessage := some "e" }]
      (by decide) (by decide) rfl
    simpa using h

/-! ## C6: error normalization -/

/-- C6 counterexample. The delete operation does not route its failing
responses through the shared normalization: for a non-JSON short body
`"oops"` with status 500, the policy would produce `"<operation>: oops"`,
but `deleteCustomVoice` exposes the fixed fallback `"未知错误"`. -/
theorem deleteNormalization_counterexample :
    deleteVoiceOutcome { ok := false, status := 500, text := "oops", json := none } =
      .error "未知错误"
    ∧ parseResponseError { ok := false, status := 500, text := "oops", json := none }
        "Delete voice" = "Delete voice: oops"
    ∧ "未知错误" ≠ "Delete voice: oops" :=
  ⟨rfl, by decide, by decide⟩

/-- C6 amended. Four of the five gateway operations — synthesize, listVoices,
transcribe, uploadVoice — expose, for every failing (non-ok) HTTP response,
the message produced by the shared `parseResponseError` policy (a truthy JSON
`message` field, with the provider `code` appended when truthy; for a
non-JSON body shorter than 200 characters the raw body as
`"<operation>: <body>"`; otherwise the generic
`"<operation> failed (<status>)"`), synthesize additionally rewriting a
normalized message containing `'50507'` into a fixed voice-incompatibility
explanation. deleteVoice does not use this policy: it exposes the JSON body's
`message` field when truthy and the fixed string `"未知错误"` otherwise. -/
theorem errorNormalizationPolicy :
    (∀ resp : HttpResponse, resp.ok = false →
      fetchVoicesOutcome resp = .error (parseResponseError resp "Fetch voices"))
    ∧ (∀ resp : HttpResponse, resp.ok = false →
      transcribeOutcome resp = .error (parseResponseError resp "Transcription"))
    ∧ (∀ resp : HttpResponse, resp.ok = false →
      uploadOutcome resp = .error (parseResponseError resp "Upload"))
    ∧ (∀ (resp : HttpResponse) (voice : Voice) (model : String),
      containsSub (parseResponseError resp "Speech generation") "50507" = false →
      speechGenErrorMessage resp voice model = parseResponseError resp "Speech generation")
    ∧ (∀ (ctx txt : String) (st : Nat) (hok : Bool) (m : String), m ≠ "" →
      parseResponseError
        { ok := hok, status := st, text := txt
          json := some (.jobj [("message", .jstr m)]) } ctx = m)
    ∧ (∀ (ctx txt : String) (st : Nat) (hok : Bool) (m : String) (c : Int),
      m ≠ "" → c ≠ 0 →
      parseResponseError
        { ok := hok, status := st, text := txt
          json := some (.jobj [("message", .jstr m), ("code", .jnum c)]) } ctx =
        m ++ " (Code: " ++ toString c ++ ")")
    ∧ (∀ (ctx txt : String) (st : Nat) (hok : Bool), txt.length < 200 →
      parseResponseError { ok := hok, status := st, text := txt, json := none } ctx =
        ctx ++ ": " ++ txt)
    ∧ (∀ (ctx txt : String) (st : Nat) (hok : Bool), ¬ txt.length < 200 →
      parseResponseError { ok := hok, status := st, text := txt, json := none } ctx =
        ctx ++ " failed (" ++ toString st ++ ")")
    ∧ (∀ resp : HttpResponse, resp.ok = false →
      deleteVoiceOutcome resp = .error (deleteVoiceErrorMessage resp))
    ∧ (∀ (txt : String) (st : Nat) (hok : Bool) (m : String), m ≠ "" →
      deleteVoiceErrorMessage
        { ok := hok, status := st, text := txt
          json := some (.jobj [("message", .jstr m)]) } = m)
    ∧ (∀ (txt : String) (st : Nat) (hok : Bool),
      deleteVoiceErrorMessage { ok := hok, status := st, text := txt, json := none } =
        "未知错误") := by
  refine ⟨?_, ?_, ?_, ?_, ?_, ?_, ?_, ?_, ?_, ?_, ?_⟩
  · intro resp h; simp [fetchVoicesOutcome, h]
  · intro resp h; simp [transcribeOutcome, h]
  · intro resp h; simp [uploadOutcome, h]
  · intro resp voice model h; simp [speechGenErrorMessage, h]
  · intro ctx txt st hok m hm
    have hm' : (m != "") = true := by simpa using hm
    have hlook : Json.lookup (.jobj [("message", .jstr m)]) "message" = some (.jstr m) := rfl
    have hcode : Json.lookup (.jobj [("message", .jstr m)]) "code" = none := rfl
    simp [parseResponseError, hlook, Json.truthy, hm', appendCode, hcode, Json.render]
  · intro ctx txt st hok m c hm hc
    have hm' : (m != "") = true := by simpa using hm
    have hc' : (c != 0) = true := by simpa using hc
    have hlook : Json.lookup (.jobj [("message", .jstr m), ("code", .jnum c)]) "message" =
        some (.jstr m) := rfl
    have hcode : Json.lookup (.jobj [("message", .jstr m), ("code", .jnum c)]) "code" =
        some (.jnum c) := rfl
    simp [parseResponseError, hlook, Json.truthy, hm', appendCode, hcode, hc', Json.render]
  · intro ctx txt st hok h; simp [parseResponseError, h]
  · intro ctx txt st hok h; simp [parseResponseError, h]
  · intro resp h; simp [deleteVoiceOutcome, h]
  · intro txt st hok m hm
    have hm' : (m != "") = true := by simpa using hm
    have hlook : Json.lookup (.jobj [("message", .jstr m)]) "message" = some (.jstr m) := rfl
    simp [deleteVoiceErrorMessage, hlook, Json.truthy, hm', Json.render]
  · intro txt st hok; rfl

set_option maxRecDepth 4000 in
/-- Witness for C6 (amended): each clause of the policy at a concrete failing
response, and the delete deviation. -/
theorem errorNormalizationPolicy_witness :
    fetchVoicesOutcome { ok := false, status := 404, text := "nf", json := none } =
      .error "Fetch voices: nf"
    ∧ transcribeOutcome { ok := false, status := 404, text := "nf", json := none } =
      .error "Transcription: nf"
    ∧ uploadOutcome { ok := false, status := 404, text := "nf", json := none } =
      .error "Upload: nf"
    ∧ speechGenErrorMessage
        { ok := false, status := 500, text := "x",
          json := some (.jobj [("message", .jstr "bad voice")]) }
        { id := "alex", name := "A", type := .system } "m" = "bad voice"
    ∧ parseResponseError
        { ok := false, status := 429, text := "x",
          json := some (.jobj [("message", .jstr "rate limited"), ("code", .jnum 50301)]) }
        "Upload" = "rate limited (Code: 50301)"
    ∧ parseResponseError
        { ok := false, status := 503,
          text := String.mk (List.replicate 200 'a'), json := none } "Upload" =
        "Upload failed (503)"
    ∧ deleteVoiceErrorMessage
        { ok := false, status := 500, text := "x",
          json := some (.jobj [("message", .jstr "no such voice")]) } = "no such voice" := by
  refine ⟨?_, ?_, ?_, ?_, ?_, ?_, ?_⟩
  · exact (errorNormalizationPolicy.1 _ rfl).trans (congrArg Except.error (by decide))
  · exact (errorNormalizationPolicy.2.1 _ rfl).trans (congrArg Except.error (by decide))
  · exact (errorNormalizationPolicy.2.2.1 _ rfl).trans (congrArg Except.error (by decide))
  · exact (errorNormalizationPolicy.2.2.2.1 _ _ _ (by decide)).trans (by decide)
  · exact errorNormalizationPolicy.2.2.2.2.2.1 "Upload" "x" 429 false "rate limited" 50301
      (by decide) (by decide)
  · exact errorNormalizationPolicy.2.2.2.2.2.2.2.1 "Upload" (String.mk (List.replicate 200 'a'))
      503 false (by decide)
  · exact errorNormalizationPolicy.2.2.2.2.2.2.2.2.2.1 "x" 500 false "no such voice" (by decide)

/-! ## C1: retry policy -/

/-- The retry loop with no cancellation: `n` failed attempts followed by a
success exit the loop with `n` warnings, `n` delays and `n + 1` calls. -/
theorem retryAuxSucceeds (env : SynthEnv)
    (hc : ∀ i, env.stopAfterCall i = false) (hd : ∀ i, env.stopAfterDelay i = false) :
    ∀ (n fuel k : Nat) (url : String),
    (∀ i, i < n → (env.result (k + i)).isOk = false) →
    env.result (k + n) = .ok url → n < fuel →
    retryAux env fuel k false =
      some { exit := .broke url false, warnings := n, delays := n, calls := n + 1 } := by
  intro n
  induction n with
  | zero =>
    intro fuel k url _ hok hfuel
    match fuel, hfuel with
    | f + 1, _ =>
      have hok' : env.result k = .ok url := by simpa using hok
      simp [retryAux, hok', hc]
  | succ n ih =>
    intro fuel k url hfail hok hfuel
    match fuel, hfuel with
    | f + 1, hfuel =>
      have h0 : (env.result k).isOk = false := by
        have := hfail 0 (Nat.succ_pos n)
        simpa using this
      rcases herr : env.result k with e | u
      · have hrec := ih f (k + 1) url
          (fun i hi => by
            have := hfail (i + 1) (by omega)
            have harith : k + (i + 1) = k + 1 + i := by omega
            rwa [harith] at this)
          (by
            have harith : k + (n + 1) = k + 1 + n := by omega
            rwa [harith] at hok)
          (by omega)
        simp [retryAux, herr, hc, hd, hrec]
      · rw [herr] at h0
        simp [Except.isOk, Except.toBool] at h0

/-- The retry loop when cancellation arrives during the `j`-th failed
attempt: the catch-block check throws the stop sentinel after `j` completed
retry rounds. -/
theorem retryAuxStopInCatch (env : SynthEnv) :
    ∀ (j fuel k : Nat),
    (∀ i, i < j → env.stopAfterCall (k + i) = false) →
    (∀ i, i < j → env.stopAfterDelay (k + i) = false) →
    (∀ i, i ≤ j → (env.result (k + i)).isOk = false) →
    env.stopAfterCall (k + j) = true → j < fuel →
    retryAux env fuel k false =
      some { exit := .stoppedInCatch, warnings := j, delays := j, calls := j + 1 } := by
  intro j
  induction j with
  | zero =>
    intro fuel k hc hd hfail hstop hfuel
    match fuel, hfuel with
    | f + 1, _ =>
      have h0 : (env.result k).isOk = false := by simpa using hfail 0 (Nat.le_refl 0)
      rcases herr : env.result k with e | u
      · have hstop' : env.stopAfterCall k = true := by simpa using hstop
        simp [retryAux, herr, hstop']
      · rw [herr] at h0
        simp [Except.isOk, Except.toBool] at h0
  | succ j ih =>
    intro fuel k hc hd hfail hstop hfuel
    match fuel, hfuel with
    | f + 1, hfuel =>
      have h0 : (env.result k).isOk = false := by simpa using hfail 0 (Nat.zero_le _)
      rcases herr : env.result k with e | u
      · have hc0 : env.stopAfterCall k = false := by simpa using hc 0 (Nat.succ_pos j)
        have hd0 : env.stopAfterDelay k = false := by simpa using hd 0 (Nat.succ_pos j)
        have hrec := ih f (k + 1)
          (fun i hi => by
            have := hc (i + 1) (by omega)
            have harith : k + (i + 1) = k + 1 + i := by omega
            rwa [harith] at this)
          (fun i hi => by
            have := hd (i + 1) (by omega)
            have harith : k + (i + 1) = k + 1 + i := by omega
            rwa [harith] at this)
          (fun i hi => by
            have := hfail (i + 1) (by omega)
            have harith : k + (i + 1) = k + 1 + i := by omega
            rwa [harith] at this)
          (by
            have harith : k + (j + 1) = k + 1 + j := by omega
            rwa [harith] at hstop)
          (by omega)
        simp [retryAux, herr, hc0, hd0, hrec]
      · rw [herr] at h0
        simp [Except.isOk, Except.toBool] at h0

/-- C1 counterexample input: every synthesis attempt fails and the user
presses Stop during the first attempt. -/
def c1StopEnv : SynthEnv :=
  { result := fun _ => .error "Network error"
    stopAfterCall := fun _ => true
    stopAfterDelay := fun _ => true }

/-- C1 counterexample. Under concurrent dispatch, a retry-prone task that
fails with cancellation requested aborts with the stop sentinel — but the
concurrent catch block recognizes only the exact message `"Stopped"`, so this
stopped-by-user outcome IS recorded as an `error` record (status `error`,
errorMessage `"User manually stopped generation."`), contradicting the
claim that it is never recorded as an error record. -/
theorem retrySentinelRecordedAsError_counterexample :
    runTaskConcurrent "IndexTeam/IndexTTS-2" c1StopEnv false 5
      [mkPending { id := "t1", text := "hello" }] "t1" =
      some [{ id := "t1", text := "hello", audioUrl := "", status := .error,
              errorMessage := some "User manually stopped generation." }] := by
  decide

/-- C1 amended. For a retry-prone model (id containing `'IndexTTS'`) the
pipeline loops: attempt synthesis; on failure with cancellation requested,
abort the task with the stopped-by-user sentinel — which the sequential
dispatcher does not record as an error record (it logs and breaks; under
concurrent dispatch the sentinel is recorded as an error record, see the
counterexample); otherwise log a warning, wait the fixed one-second delay,
re-check cancellation, and retry until success or cancellation. For any
other model synthesis is attempted exactly once with no retry, warning or
delay. With `n` consecutive failures followed by a success and no
cancellation, the task ends in success having logged exactly `n` retry
warnings with a one-second wait after each. -/
theorem retryPolicy :
    (∀ (model : String) (env : SynthEnv) (fuel n : Nat) (url : String),
      retryProne model = true →
      (∀ i, env.stopAfterCall i = false) → (∀ i, env.stopAfterDelay i = false) →
      (∀ i, i < n → (env.result i).isOk = false) →
      env.result n = .ok url → n < fuel →
      processSingleTask model env false fuel =
        some { outcome := .ok url, warnings := n, delays := n, calls := n + 1 })
    ∧ (∀ (model : String) (env : SynthEnv) (fuel j : Nat),
      retryProne model = true →
      (∀ i, i < j → env.stopAfterCall i = false) →
      (∀ i, i < j → env.stopAfterDelay i = false) →
      (∀ i, i ≤ j → (env.result i).isOk = false) →
      env.stopAfterCall j = true → j < fuel →
      processSingleTask model env false fuel =
        some { outcome := .thrown stopSentinel, warnings := j, delays := j, calls := j + 1 })
    ∧ (∀ (benv : BatchEnv) (i : Nat) (t : GenTask) (rest : List GenTask)
        (msgs : List AudioMessage),
      benv.stopBefore i = false → benv.outcome i = .thrown stopSentinel →
      seqDispatch benv i (t :: rest) msgs = (msgs, [t.id]))
    ∧ (∀ (model : String) (env : SynthEnv) (stop0 : Bool) (fuel : Nat),
      retryProne model = false →
      ∃ tr, processSingleTask model env stop0 fuel = some tr ∧ tr.calls = 1
        ∧ tr.warnings = 0 ∧ tr.delays = 0) := by
  refine ⟨?_, ?_, ?_, ?_⟩
  · intro model env fuel n url hm hc hd hfail hok hfuel
    have h := retryAuxSucceeds env hc hd n fuel 0 url
      (fun i hi => by simpa using hfail i hi) (by simpa using hok) hfuel
    simp [processSingleTask, hm, h]
  · intro model env fuel j hm hc hd hfail hstop hfuel
    have h := retryAuxStopInCatch env j fuel 0
      (fun i hi => by simpa using hc i hi) (fun i hi => by simpa using hd i hi)
      (fun i hi => by simpa using hfail i hi) (by simpa using hstop) hfuel
    simp [processSingleTask, hm, h]
  · intro benv i t rest msgs h1 h2
    have hsm : isStopMsg stopSentinel = true := by decide
    simp [seqDispatch, h1, h2, hsm]
  · intro model env stop0 fuel hm
    rcases herr : env.result 0 with e | u
    · exact ⟨{ outcome := .thrown e, warnings := 0, delays := 0, calls := 1 },
        by simp [processSingleTask, hm, herr], rfl, rfl, rfl⟩
    · by_cases hs : env.stopAfterCall 0 = true
      · exact ⟨{ outcome := .thrown stoppedMsg, warnings := 0, delays := 0, calls := 1 },
          by simp [processSingleTask, hm, herr, hs], rfl, rfl, rfl⟩
      · exact ⟨{ outcome := .ok u, warnings := 0, delays := 0, calls := 1 },
          by simp [processSingleTask, hm, herr, hs], rfl, rfl, rfl⟩

/-- C1 witness input: three gateway failures, then success, no cancellation. -/
def c1SuccEnv : SynthEnv :=
  { result := fun i => if i < 3 then .error ("fail" ++ toString i) else .ok "blob:ok"
    stopAfterCall := fun _ => false
    stopAfterDelay := fun _ => false }

/-- Witness for C1 (amended): the spec's three-failures-then-success scenario
ends in success with exactly three warnings and three one-second waits; a
sequential stop sentinel leaves the list unchanged; a non-retry-prone model
makes exactly one call. -/
theorem retryPolicy_witness :
    processSingleTask "IndexTeam/IndexTTS-2" c1SuccEnv false 5 =
      some { outcome := .ok "blob:ok", warnings := 3, delays := 3, calls := 4 }
    ∧ seqDispatch { outcome := fun _ => .thrown stopSentinel, stopBefore := fun _ => false } 0
        [{ id := "t", text := "x" }] [] = ([], ["t"])
    ∧ (∃ tr, processSingleTask "FunAudioLLM/CosyVoice2-0.5B" c1SuccEnv false 5 = some tr
        ∧ tr.calls = 1 ∧ tr.warnings = 0 ∧ tr.delays = 0) := by
  refine ⟨?_, ?_, ?_⟩
  · exact retryPolicy.1 "IndexTeam/IndexTTS-2" c1SuccEnv 5 3 "blob:ok" (by decide)
      (fun i => rfl) (fun i => rfl)
      (fun i hi => by interval_cases i <;> decide)
      rfl (by omega)
  · exact retryPolicy.2.2.1 _ 0 { id := "t", text := "x" } [] [] rfl rfl
  · exact retryPolicy.2.2.2 "FunAudioLLM/CosyVoice2-0.5B" c1SuccEnv false 5 (by decide)

/-! ## C2: sequential cancellation -/

/-- A per-id update map leaves a list without that id untouched. -/
theorem mapIfIdUntouched (g : AudioMessage → AudioMessage) (A : List AudioMessage)
    (tid : String) (h : ∀ m ∈ A, m.id ≠ tid) :
    (A.map fun m => if m.id = tid then g m else m) = A := by
  induction A with
  | nil => rfl
  | cons a l ih =>
    rw [List.map_cons, if_neg (h a (List.mem_cons_self a l)),
      ih fun m hm => h m (List.mem_cons_of_mem a hm)]

/-- `markSuccess` on the batch list turns exactly the head task's placeholder
into its resolved record. -/
theorem markSuccessBatch (A B : List AudioMessage) (t : GenTask) (rest : List GenTask)
    (url : String) (hA : ∀ m ∈ A, m.id ≠ t.id) (hB : ∀ m ∈ B, m.id ≠ t.id)
    (hr : ∀ t' ∈ rest, t.id ≠ t'.id) :
    markSuccess (A ++ (t :: rest).map mkPending ++ B) t.id url =
      (A ++ [resolvedMsg t (TaskOutcome.ok url)]) ++ rest.map mkPending ++ B := by
  unfold markSuccess
  simp only [List.map_append, List.map_cons]
  rw [mapIfIdUntouched _ A _ hA, mapIfIdUntouched _ B _ hB]
  rw [mapIfIdUntouched _ (rest.map mkPending) _ (by
    intro m hm
    rcases List.mem_map.mp hm with ⟨t', ht', rfl⟩
    exact fun he => hr t' ht' he.symm)]
  simp [mkPending, resolvedMsg]

/-- `markError` on the batch list turns exactly the head task's placeholder
into its error record. -/
theorem markErrorBatch (A B : List AudioMessage) (t : GenTask) (rest : List GenTask)
    (msg : String) (hA : ∀ m ∈ A, m.id ≠ t.id) (hB : ∀ m ∈ B, m.id ≠ t.id)
    (hr : ∀ t' ∈ rest, t.id ≠ t'.id) :
    markError (A ++ (t :: rest).map mkPending ++ B) t.id msg =
      (A ++ [resolvedMsg t (TaskOutcome.thrown msg)]) ++ rest.map mkPending ++ B := by
  unfold markError
  simp only [List.map_append, List.map_cons]
  rw [mapIfIdUntouched _ A _ hA, mapIfIdUntouched _ B _ hB]
  rw [mapIfIdUntouched _ (rest.map mkPending) _ (by
    intro m hm
    rcases List.mem_map.mp hm with ⟨t', ht', rfl⟩
    exact fun he => hr t' ht' he.symm)]
  simp [mkPending, resolvedMsg]

/-- Characterization of the sequential dispatch loop when the cancellation
flag turns on exactly at absolute task index `k` and every task before it
resolves: the first `k - j` remaining tasks are dispatched and resolved in
place, the rest keep their pending placeholders, surrounding records are
untouched. -/
theorem seqDispatchRun (env : BatchEnv) (k : Nat)
    (hstopLt : ∀ i, i < k → env.stopBefore i = false)
    (hstopGe : ∀ i, k ≤ i → env.stopBefore i = true)
    (hres : ∀ i, i < k → resolvedOutcome (env.outcome i) = true) :
    ∀ (ts : List GenTask) (j : Nat) (A B : List AudioMessage),
    (ts.map GenTask.id).Nodup →
    (∀ m ∈ A, ∀ t ∈ ts, m.id ≠ t.id) →
    (∀ m ∈ B, ∀ t ∈ ts, m.id ≠ t.id) →
    seqDispatch env j ts (A ++ ts.map mkPending ++ B) =
      (A ++ resolvedFrom env k j ts ++ (ts.drop (k - j)).map mkPending ++ B,
       (ts.take (k - j)).map GenTask.id) := by
  intro ts
  induction ts with
  | nil =>
    intro j A B _ _ _
    simp [seqDispatch, resolvedFrom]
  | cons t rest ih =>
    intro j A B hnodup hA hB
    have hheadA : ∀ m ∈ A, m.id ≠ t.id := fun m hm => hA m hm t (List.mem_cons_self t rest)
    have hheadB : ∀ m ∈ B, m.id ≠ t.id := fun m hm => hB m hm t (List.mem_cons_self t rest)
    have hhead : ∀ t' ∈ rest, t.id ≠ t'.id := by
      intro t' ht' he
      exact (List.nodup_cons.mp hnodup).1 (he ▸ List.mem_map_of_mem GenTask.id ht')
    have htailN : (rest.map GenTask.id).Nodup := (List.nodup_cons.mp hnodup).2
    by_cases hjk : j < k
    · have hstop : env.stopBefore j = false := hstopLt j hjk
      have hkj : k - j = (k - (j + 1)) + 1 := by omega
      have hdrop : (t :: rest).drop (k - j) = rest.drop (k - (j + 1)) := by rw [hkj]; rfl
      have htake : (t :: rest).take (k - j) = t :: rest.take (k - (j + 1)) := by rw [hkj]; rfl
      rcases ho : env.outcome j with url | msg
      · have hmark := markSuccessBatch A B t rest url hheadA hheadB hhead
        have ihinst := ih (j + 1) (A ++ [resolvedMsg t (TaskOutcome.ok url)]) B htailN
          (by
            intro m hm t' ht'
            rcases List.mem_append.mp hm with hm | hm
            · exact hA m hm t' (List.mem_cons_of_mem t ht')
            · have : m = resolvedMsg t (TaskOutcome.ok url) := by simpa using hm
              subst this
              exact hhead t' ht')
          (fun m hm t' ht' => hB m hm t' (List.mem_cons_of_mem t ht'))
        have hRF : resolvedFrom env k j (t :: rest) =
            resolvedMsg t (TaskOutcome.ok url) :: resolvedFrom env k (j + 1) rest := by
          simp [resolvedFrom, hjk, ho]
        simp only [seqDispatch, hstop, Bool.false_eq_true, if_false, ho]
        rw [hmark, ihinst, hRF, hdrop, htake]
        simp [List.append_assoc]
      · have hro := hres j hjk
        rw [ho] at hro
        have hsm : isStopMsg msg = false := by simpa [resolvedOutcome] using hro
        have hmark := markErrorBatch A B t rest msg hheadA hheadB hhead
        have ihinst := ih (j + 1) (A ++ [resolvedMsg t (TaskOutcome.thrown msg)]) B htailN
          (by
            intro m hm t' ht'
            rcases List.mem_append.mp hm with hm | hm
            · exact hA m hm t' (List.mem_cons_of_mem t ht')
            · have : m = resolvedMsg t (TaskOutcome.thrown msg) := by simpa using hm
              subst this
              exact hhead t' ht')
          (fun m hm t' ht' => hB m hm t' (List.mem_cons_of_mem t ht'))
        have hRF : resolvedFrom env k j (t :: rest) =
            resolvedMsg t (TaskOutcome.thrown msg) :: resolvedFrom env k (j + 1) rest := by
          simp [resolvedFrom, hjk, ho]
        simp only [seqDispatch, hstop, Bool.false_eq_true, if_false, ho, hsm]
        rw [hmark, ihinst, hRF, hdrop, htake]
        simp [List.append_assoc]
    · have hstop : env.stopBefore j = true := hstopGe j (by omega)
      have hk0 : k - j = 0 := by omega
      have hRF : resolvedFrom env k j (t :: rest) = [] := by simp [resolvedFrom, hjk]
      simp [seqDispatch, hstop, hRF, hk0]

/-- Every record produced by resolving a task is in a terminal state. -/
theorem resolvedFromNonPending (env : BatchEnv) (k : Nat) :
    ∀ (ts : List GenTask) (j : Nat),
    List.filter (fun m => m.status != Status.pending) (resolvedFrom env k j ts) =
      resolvedFrom env k j ts := by
  intro ts
  induction ts with
  | nil => intro j; rfl
  | cons t rest ih =>
    intro j
    by_cases hjk : j < k
    · rcases ho : env.outcome j with url | msg <;>
        simp [resolvedFrom, hjk, ho, resolvedMsg, List.filter_cons, ih (j + 1)]
    · simp [resolvedFrom, hjk]

/-- Pending placeholders are all removed by the cancellation cleanup filter. -/
theorem filterPendingPlaceholders (ts : List GenTask) :
    List.filter (fun m => m.status != Status.pending) (ts.map mkPending) = [] := by
  induction ts with
  | nil => rfl
  | cons t rest ih => simp [mkPending, List.filter_cons, ih]

/-- C2. In a sequential batch whose cancellation flag turns on after the
first `k` tasks completed (each resolving to success or error), the final
message list consists of exactly the resolved records of tasks `1..k`
(in order, in front) followed by the prior records that were not pending;
tasks `k+1..N` are never dispatched — no synthesis attempt is made for them —
and their placeholder records, like every other still-pending record, are
removed from the list. -/
theorem sequentialCancellation (env : BatchEnv) (tasks : List GenTask)
    (msgs0 : List AudioMessage) (k : Nat)
    (hnodup : (tasks.map GenTask.id).Nodup)
    (hdisj : ∀ m ∈ msgs0, ∀ t ∈ tasks, m.id ≠ t.id)
    (hstopLt : ∀ i, i < k → env.stopBefore i = false)
    (hstopGe : ∀ i, k ≤ i → env.stopBefore i = true)
    (hres : ∀ i, i < k → resolvedOutcome (env.outcome i) = true) :
    runBatchSeq env true tasks msgs0 =
      (resolvedFrom env k 0 tasks ++ msgs0.filter (fun m => m.status != Status.pending),
       (tasks.take k).map GenTask.id) := by
  have h := seqDispatchRun env k hstopLt hstopGe hres tasks 0 [] msgs0 hnodup
    (by intro m hm; cases hm) hdisj
  simp only [List.nil_append, Nat.sub_zero] at h
  unfold runBatchSeq
  rw [h]
  simp only [if_true, List.filter_append, resolvedFromNonPending, filterPendingPlaceholders,
    List.nil_append, List.append_nil]

/-- C2 witness input: the stop flag turns on after two of five tasks. -/
def c2Env : BatchEnv :=
  { outcome := fun i =>
      if i = 0 then .ok "u0" else if i = 1 then .thrown "gateway boom" else .ok "ux"
    stopBefore := fun i => decide (2 ≤ i) }

/-- Witness for C2: the spec's scenario — cancellation after task 2 of 5.
Tasks 3–5 are undispatched and absent; tasks 1–2 keep their resolved states;
a prior pending record is removed, a prior success record kept. -/
theorem sequentialCancellation_witness :
    runBatchSeq c2Env true
      [{ id := "t1", text := "s1" }, { id := "t2", text := "s2" },
       { id := "t3", text := "s3" }, { id := "t4", text := "s4" },
       { id := "t5", text := "s5" }]
      [{ id := "old1", text := "o1", audioUrl := "ua", status := .success },
       { id := "old2", text := "o2", audioUrl := "", status := .pending }] =
      ([{ id := "t1", text := "s1", audioUrl := "u0", status := .success },
        { id := "t2", text := "s2", audioUrl := "", status := .error,
          errorMessage := some "gateway boom" },
        { id := "old1", text := "o1", audioUrl := "ua", status := .success }],
       ["t1", "t2"]) := by
  have h := sequentialCancellation c2Env
    [{ id := "t1", text := "s1" }, { id := "t2", text := "s2" },
     { id := "t3", text := "s3" }, { id := "t4", text := "s4" },
     { id := "t5", text := "s5" }]
    [{ id := "old1", text := "o1", audioUrl := "ua", status := .success },
     { id := "old2", text := "o2", audioUrl := "", status := .pending }]
    2 (by decide) (by decide)
    (by decide)
    (fun i hi => by simp [c2Env, hi])
    (by decide)
  exact h.trans (by decide)

/-! ## C3: auto-split segmentation -/

/-- C3. With auto-split enabled the produced segment list is the submitted
text partitioned on line boundaries, trimmed, with empty lines discarded, in
order — on the input `"a\n\nb\n  \nc"` exactly `["a","b","c"]` — each segment
becoming its own `pending` task; if zero segments remain the submission
aborts: the message list is unchanged (no task record created) and nothing is
dispatched (no remote call). -/
theorem autoSplitSegmentation :
    (submissionSegments true "a\n\nb\n  \nc" = ["a", "b", "c"])
    ∧ (∀ (ids : Nat → String) (i : Nat) (segs : List String),
        (mkTasks ids i segs).map (fun t => ((mkPending t).text, (mkPending t).status)) =
          segs.map fun s => (s, Status.pending))
    ∧ (∀ (env : BatchEnv) (stopFinal : Bool) (ids : Nat → String) (text : String)
         (msgs0 : List AudioMessage), splitSegments text = [] →
        handleGenerateSeq true env stopFinal ids text msgs0 = (msgs0, [])) := by
  refine ⟨by decide, ?_, ?_⟩
  · intro ids i segs
    induction segs generalizing i with
    | nil => rfl
    | cons s rest ih =>
      have h := ih (i + 1)
      simp only [mkPending] at h
      simp [mkTasks, mkPending, h]
  · intro env stopFinal ids text msgs0 h
    simp [handleGenerateSeq, submissionSegments, h]

/-- Witness for C3: a whitespace-only submission aborts leaving the prior
list untouched. -/
theorem autoSplitSegmentation_witness :
    handleGenerateSeq true { outcome := fun _ => .ok "u", stopBefore := fun _ => false }
      false (fun i => toString i) "\n  \n"
      [{ id := "old", text := "t", audioUrl := "a", status := .success }] =
      ([{ id := "old", text := "t", audioUrl := "a", status := .success }], []) :=
  autoSplitSegmentation.2.2 _ false (fun i => toString i) "\n  \n" _ (by decide)

/-! ## C4: persisted subset -/

/-- C4 counterexample. The claim predicts every non-`pending` record is
serialized; the save filter also drops `error` records: on the singleton list
holding one `error` record, the persisted subset is empty although the
record's status is not `pending`. -/
theorem persistedSubset_counterexample :
    messagesToSave [{ id := "m1", text := "hi", audioUrl := "", status := .error,
                      errorMessage := some "boom" }] = []
    ∧ List.filter (fun m => m.status != Status.pending)
        [({ id := "m1", text := "hi", audioUrl := "", status := .error,
            errorMessage := some "boom" } : AudioMessage)] =
        [{ id := "m1", text := "hi", audioUrl := "", status := .error,
           errorMessage := some "boom" }] := by
  exact ⟨by decide, by decide⟩

/-- C4 amended. The records written to persistent storage by a save are
exactly the records whose status is `success`: both `pending` and `error`
records are excluded. -/
theorem persistedSubsetIsSuccessOnly (msgs : List AudioMessage) :
    messagesToSave msgs = msgs.filter fun m => m.status == Status.success := by
  unfold messagesToSave
  refine List.filter_congr fun m _ => ?_
  rcases m with ⟨mid, mtext, murl, mst, merr⟩
  cases mst <;> rfl

/-! ## C7: auto-play chain -/

/-- C7. With auto-play disabled the active id is simply cleared. With
auto-play enabled, when the message at some position of the newest-first list
finishes, the controller looks only at the immediately next-older record: if
it exists and is `success` it becomes active; if it exists with any other
status, or does not exist, the active id is cleared — no record further down
is ever skipped to. -/
theorem autoPlayChainAdvance :
    (∀ (msgs : List AudioMessage) (act : Option String) (endedId : String),
      handleAudioEnded false msgs act endedId = none)
    ∧ (∀ (P rest : List AudioMessage) (cur next : AudioMessage) (act : Option String),
        (∀ m ∈ P, m.id ≠ cur.id) →
        handleAudioEnded true (P ++ cur :: next :: rest) act cur.id =
          (if next.status = Status.success then some next.id else none))
    ∧ (∀ (P : List AudioMessage) (cur : AudioMessage) (act : Option String),
        (∀ m ∈ P, m.id ≠ cur.id) →
        handleAudioEnded true (P ++ [cur]) act cur.id = none) := by
  refine ⟨fun _ _ _ => rfl, ?_, ?_⟩
  · intro P rest cur next act hP
    have hfind : List.findIdx? (fun m => m.id == cur.id) (P ++ cur :: next :: rest) =
        some P.length :=
      findIdxAppendCons _ P cur (next :: rest)
        (fun a ha => by simpa using hP a ha) (by simp)
    have hget : (P ++ cur :: next :: rest)[P.length + 1]? = some next := by
      rw [List.getElem?_append_right (by omega)]
      simp
    simp only [handleAudioEnded, hfind, hget, Bool.not_true]
    by_cases hs : next.status = Status.success <;> simp [hs]
  · intro P cur act hP
    have hfind : List.findIdx? (fun m => m.id == cur.id) (P ++ [cur]) = some P.length :=
      findIdxAppendCons _ P cur [] (fun a ha => by simpa using hP a ha) (by simp)
    have hget : (P ++ [cur])[P.length + 1]? = none := by
      rw [List.getElem?_append_right (by omega)]
      simp
    simp [handleAudioEnded, hfind, hget]

/-- Witness for C7: the spec's scenario `[success X, success Y, error Z,
success W]` — when `X` ends, `Y` becomes active; when `Y` ends, the chain
stops at `error Z` (never skipping to `W`); with auto-play off the active id
is cleared. -/
theorem autoPlayChainAdvance_witness :
    handleAudioEnded true
      [{ id := "x", text := "tx", audioUrl := "ux", status := .success },
       { id := "y", text := "ty", audioUrl := "uy", status := .success },
       { id := "z", text := "tz", audioUrl := "", status := .error,
         errorMessage := some "e" },
       { id := "w", text := "tw", audioUrl := "uw", status := .success }]
      (some "x") "x" = some "y"
    ∧ handleAudioEnded true
      [{ id := "x", text := "tx", audioUrl := "ux", status := .success },
       { id := "y", text := "ty", audioUrl := "uy", status := .success },
       { id := "z", text := "tz", audioUrl := "", status := .error,
         errorMessage := some "e" },
       { id := "w", text := "tw", audioUrl := "uw", status := .success }]
      (some "y") "y" = none
    ∧ handleAudioEnded false
      [{ id := "x", text := "tx", audioUrl := "ux", status := .success }]
      (some "x") "x" = none := by
  refine ⟨?_, ?_, autoPlayChainAdvance.1 _ _ _⟩
  · have h := autoPlayChainAdvance.2.1 []
      [{ id := "z", text := "tz", audioUrl := "", status := .error,
         errorMessage := some "e" },
       { id := "w", text := "tw", audioUrl := "uw", status := .success }]
      { id := "x", text := "tx", audioUrl := "ux", status := .success }
      { id := "y", text := "ty", audioUrl := "uy", status := .success }
      (some "x") (by intro m hm; cases hm)
    simpa using h
  · have h := autoPlayChainAdvance.2.1
      [{ id := "x", text := "tx", audioUrl := "ux", status := .success }]
      [{ id := "w", text := "tw", audioUrl := "uw", status := .success }]
      { id := "y", text := "ty", audioUrl := "uy", status := .success }
      { id := "z", text := "tz", audioUrl := "", status := .error,
        errorMessage := some "e" }
      (some "y") (by intro m hm; simp at hm; subst hm; decide)
    simpa using h

/-! ## C10: end-of-playback for an absent id -/

/-- C10 counterexample. With auto-play disabled, reporting end-of-playback
for an id absent from the (here empty) list is not a no-op: the handler
clears the active id instead of leaving it at `some "x"`. -/
theorem absentEndedId_counterexample :
    handleAudioEnded false [] (some "x") "ghost" = none
    ∧ (none : Option String) ≠ some "x" := ⟨rfl, by decide⟩

/-- C10 amended. With auto-play enabled, reporting natural end-of-playback
for an id not present in the message list is a no-op: the handler returns
with the active id unchanged and activates no other message; with auto-play
disabled the handler clears the active id as it does for any ended message. -/
theorem absentEndedIdNoOp (msgs : List AudioMessage) (act : Option String)
    (endedId : String) (h : ∀ m ∈ msgs, m.id ≠ endedId) :
    handleAudioEnded true msgs act endedId = act := by
  have hfind : List.findIdx? (fun m => m.id == endedId) msgs = none :=
    findIdxNoneOf _ msgs fun a ha => by simpa using h a ha
  simp [handleAudioEnded, hfind]

/-- Witness for C10: a deleted id leaves the active id untouched when
auto-play is on. -/
theorem absentEndedIdNoOp_witness :
    handleAudioEnded true
      [{ id := "x", text := "tx", audioUrl := "ux", status := .success }]
      (some "x") "ghost" = some "x" :=
  absentEndedIdNoOp _ _ _ (by intro m hm; simp at hm; subst hm; decide)

/-! ## C8: voice-parameter encoding -/

/-- C8. The request body's voice parameter: a custom voice passes its id
directly and only when non-empty; a system voice is encoded as
`"<model>:<voice-id>"` unless the id is the provider's implicit default
(empty or `'default'`), in which case the parameter is omitted. -/
theorem voiceParamEncoding (model text : String) (voice : Voice) :
    ((buildSpeechBody model text voice).voice = speechVoiceParam model voice)
    ∧ (voice.type = VoiceType.custom →
        speechVoiceParam model voice = if voice.id = "" then none else some voice.id)
    ∧ (voice.type = VoiceType.system →
        speechVoiceParam model voice =
          if isImplicitDefaultId voice.id then none else some (model ++ ":" ++ voice.id)) := by
  refine ⟨rfl, ?_, ?_⟩
  · intro h
    by_cases hid : voice.id = "" <;> simp [speechVoiceParam, h, hid]
  · intro h
    have hc : voice.type = VoiceType.custom ↔ False := by simp [h]
    by_cases h1 : voice.id = "" <;> by_cases h2 : voice.id = "default" <;>
      simp [speechVoiceParam, hc, isImplicitDefaultId, h1, h2]

/-- Witness for C8: the four encoding cases at concrete voices. -/
theorem voiceParamEncoding_witness :
    speechVoiceParam "m" { id := "alex", name := "A", type := .system } = some "m:alex"
    ∧ speechVoiceParam "m" { id := "default", name := "D", type := .system } = none
    ∧ speechVoiceParam "m" { id := "speech:v1", name := "C", type := .custom } =
        some "speech:v1"
    ∧ speechVoiceParam "m" { id := "", name := "C", type := .custom } = none := by
  refine ⟨?_, ?_, ?_, ?_⟩
  · have h := (voiceParamEncoding "m" "t" { id := "alex", name := "A", type := .system }).2.2 rfl
    simpa using h
  · have h :=
      (voiceParamEncoding "m" "t" { id := "default", name := "D", type := .system }).2.2 rfl
    simpa using h
  · have h :=
      (voiceParamEncoding "m" "t" { id := "speech:v1", name := "C", type := .custom }).2.1 rfl
    simpa using h
  · have h := (voiceParamEncoding "m" "t" { id := "", name := "C", type := .custom }).2.1 rfl
    simpa using h

/-! ## C9: blank-text guard -/

/-- C9. A synthesis call whose text is empty or whitespace-only fails with
exactly `"Text is required"` before any request body is produced: no HTTP
request is issued and no state is touched. -/
theorem generateSpeechBlankTextGuard (text model : String) (voice : Voice)
    (h : jsTrim text = "") :
    generateSpeech text model voice = Except.error "Text is required" := by
  simp [generateSpeech, h]

/-- Witness for C9: a whitespace-only text. -/
theorem generateSpeechBlankTextGuard_witness :
    generateSpeech "  \t " "IndexTeam/IndexTTS-2"
      { id := "alex", name := "A", type := .system } = Except.error "Text is required" :=
  generateSpeechBlankTextGuard _ _ _ (by decide)

end RikkaTTS
